import Mathlib

/-!
Shallow embedding of the showNDev content-review frontend.

The definitions below are translated from the repository's TypeScript
sources: the main `App` component (`convertContentItemToPost`,
`normalizedTone`, the grouping in `loadContentFromBackend` and
`refreshContentFromBackend`, `updatePostStatus`, `rephrasePost`,
`handleApprove`), `components/PostCard.tsx`, `components/Header.tsx`,
`hooks/useSocialEnv.ts` and `types/social.ts`.

JavaScript conventions are modelled explicitly:
- a possibly-`undefined` value is an `Option`;
- the truthiness test `x || d` on an optional string is `jsOrString`
  (both `undefined` and the empty string are falsy);
- a backend call that may throw is a parameter of type `Except String _`
  giving the outcome the `await` observes;
- status strings are plain `String`s, exactly as the TypeScript code
  compares them.
-/

/-- Media kinds used by the frontend (`image`, `video`, `audio`). -/
inductive MediaType where
  | image
  | video
  | audio
deriving DecidableEq, Repr

/-- One media entry of a post: url, type and optional caption. -/
structure MediaItem where
  url : String
  type : MediaType
  caption : Option String
deriving DecidableEq, Repr

/-- Author descriptor (`name`, `avatar`, optional `title`). -/
structure Author where
  name : String
  avatar : String
  title : Option String
deriving DecidableEq, Repr

/-- The backend `ContentItem` shape consumed by `convertContentItemToPost`.
Optional fields model `undefined`-able TypeScript fields; `status` is the
raw backend status string. -/
structure ContentItem where
  mongoId : String
  platform : Option String
  author : Option Author
  content : Option String
  status : String
  image_content : Option (List String)
  video_content : Option (List String)
  audio_content : Option (List String)
  media : Option (List MediaItem)
  repository : Option String
  commit_sha : Option String
  branch : Option String
deriving DecidableEq, Repr

/-- The UI `Post` shape produced by `convertContentItemToPost`. -/
structure Post where
  id : String
  platform : String
  author : Author
  content : String
  status : String
  media : List MediaItem
  repository : Option String
  commit_sha : Option String
  branch : Option String
deriving DecidableEq, Repr

/-- JavaScript `x || d` on an optional string: `undefined` and `""` are
falsy, anything else is returned unchanged. -/
def jsOrString (x : Option String) (d : String) : String :=
  match x with
  | none => d
  | some v => if v = "" then d else v

/-- Default author used when `item.author` is missing
(`convertContentItemToPost`). -/
def defaultAuthor : Author :=
  { name := "System"
    avatar := "https://placehold.co/100x100/667eea/ffffff?text=SYS"
    title := none }

/-- The status ternary of `convertContentItemToPost`:
`pending → pending`, `rephrased → pending`, `rejected → disapproved`,
anything else → `posted`. -/
def convertStatusToUI (s : String) : String :=
  if s = "pending" then "pending"
  else if s = "rephrased" then "pending"
  else if s = "rejected" then "disapproved"
  else "posted"

/-- The `forEach`/`push` loop adding every non-empty url of `urls` as a
media entry of type `ty` with no caption (images and videos in
`convertContentItemToPost`). -/
def pushUrls (init : List MediaItem) (urls : List String) (ty : MediaType) :
    List MediaItem :=
  urls.foldl
    (fun acc url => if url ≠ "" then acc ++ [⟨url, ty, none⟩] else acc) init

/-- The audio `forEach` of `convertContentItemToPost`: every non-empty
base64 entry becomes a `data:audio/mpeg;base64,`-prefixed audio entry
captioned `Audio (index+1)`, the index counting positions of the original
array. -/
def pushAudios (init : List MediaItem) (audios : List String) :
    List MediaItem :=
  (audios.enum).foldl
    (fun acc p =>
      if p.2 ≠ "" then
        acc ++ [⟨"data:audio/mpeg;base64," ++ p.2, MediaType.audio,
                 some ("Audio " ++ toString (p.1 + 1))⟩]
      else acc) init

/-- The media array built by `convertContentItemToPost`: images, then
videos, then audios, falling back to the legacy `item.media` field when
the constructed array is empty. -/
def buildMedia (item : ContentItem) : List MediaItem :=
  let m0 : List MediaItem := []
  let m1 := pushUrls m0 (item.image_content.getD []) MediaType.image
  let m2 := pushUrls m1 (item.video_content.getD []) MediaType.video
  let m3 := pushAudios m2 (item.audio_content.getD [])
  if m3.isEmpty then
    match item.media with
    | some legacy => m3 ++ legacy
    | none => m3
  else m3

/-- Translation of `convertContentItemToPost` from `App.tsx`. -/
def convertContentItemToPost (item : ContentItem) : Post :=
  { id := item.mongoId
    platform := jsOrString item.platform "LinkedIn"
    author := item.author.getD defaultAuthor
    content := item.content.getD ""
    status := convertStatusToUI item.status
    media := buildMedia item
    repository := item.repository
    commit_sha := item.commit_sha
    branch := item.branch }

/-- PostCard: the content textarea is disabled when
`post.status !== 'pending'`. -/
def contentTextareaDisabled (post : Post) : Bool :=
  post.status ≠ "pending"

/-- PostCard: the Approve button is disabled when
`post.status !== 'pending'`. -/
def approveButtonDisabled (post : Post) : Bool :=
  post.status ≠ "pending"

/-- PostCard: the Reject button is disabled when
`post.status !== 'pending'`. -/
def rejectButtonDisabled (post : Post) : Bool :=
  post.status ≠ "pending"

/-- Header slider minimum (`min="0"` on the range input). -/
def headerToneMin : ℚ := 0

/-- Header slider maximum (`max="100"` on the range input). -/
def headerToneMax : ℚ := 100

/-- App.tsx: `const normalizedTone = tone / 100` — the tone sent to the
rephrase backend. JavaScript numbers are modelled as rationals. -/
def normalizedTone (tone : ℚ) : ℚ :=
  tone / 100

/-- The UI-to-backend status mapping inside `updatePostStatus`:
`disapproved → rejected`, `posted → published`, anything else unchanged. -/
def uiStatusToBackend (newStatus : String) : String :=
  if newStatus = "disapproved" then "rejected"
  else if newStatus = "posted" then "published"
  else newStatus

/-- The `SocialEnvValues` record of `types/social.ts`: the ten
credential/config fields of the social settings modal. -/
structure SocialEnvValues where
  twitterApiKey : String
  twitterApiSecretKey : String
  twitterAccessToken : String
  twitterAccessTokenSecret : String
  blueskyIdentifier : String
  blueskyAppPassword : String
  blueskyServiceUrl : String
  linkedinClientId : String
  linkedinClientSecret : String
  linkedinRedirectUri : String
deriving DecidableEq, Repr

/-- The `defaultSocialEnvValues` constant of `types/social.ts`. -/
def defaultSocialEnvValues : SocialEnvValues :=
  { twitterApiKey := ""
    twitterApiSecretKey := ""
    twitterAccessToken := ""
    twitterAccessTokenSecret := ""
    blueskyIdentifier := ""
    blueskyAppPassword := ""
    blueskyServiceUrl := "https://bsky.social"
    linkedinClientId := ""
    linkedinClientSecret := ""
    linkedinRedirectUri := "http://localhost:3000/callback" }

/-- Field keys of `SocialEnvValues` (`SocialEnvFieldKey` in
`types/social.ts`). -/
inductive SocialEnvFieldKey where
  | twitterApiKey
  | twitterApiSecretKey
  | twitterAccessToken
  | twitterAccessTokenSecret
  | blueskyIdentifier
  | blueskyAppPassword
  | blueskyServiceUrl
  | linkedinClientId
  | linkedinClientSecret
  | linkedinRedirectUri
deriving DecidableEq, Repr

/-- Field projection `values[field]` for `SocialEnvValues`. -/
def socialEnvField (v : SocialEnvValues) : SocialEnvFieldKey → String
  | .twitterApiKey => v.twitterApiKey
  | .twitterApiSecretKey => v.twitterApiSecretKey
  | .twitterAccessToken => v.twitterAccessToken
  | .twitterAccessTokenSecret => v.twitterAccessTokenSecret
  | .blueskyIdentifier => v.blueskyIdentifier
  | .blueskyAppPassword => v.blueskyAppPassword
  | .blueskyServiceUrl => v.blueskyServiceUrl
  | .linkedinClientId => v.linkedinClientId
  | .linkedinClientSecret => v.linkedinClientSecret
  | .linkedinRedirectUri => v.linkedinRedirectUri

/-- The `SOCIAL_ENV_FIELD_API_KEYS` record of `types/social.ts`, as an
association list in the object-literal order (the order `Object.keys`
iterates). -/
def SOCIAL_ENV_FIELD_API_KEYS : List (SocialEnvFieldKey × String) :=
  [ (.twitterApiKey, "twitter_api_key")
  , (.twitterApiSecretKey, "twitter_api_secret_key")
  , (.twitterAccessToken, "twitter_access_token")
  , (.twitterAccessTokenSecret, "twitter_access_token_secret")
  , (.blueskyIdentifier, "bluesky_identifier")
  , (.blueskyAppPassword, "bluesky_app_password")
  , (.blueskyServiceUrl, "bluesky_service_url")
  , (.linkedinClientId, "linkedin_client_id")
  , (.linkedinClientSecret, "linkedin_client_secret")
  , (.linkedinRedirectUri, "linkedin_redirect_uri") ]

/-- Translation of `toSocialEnvApiPayload` from `types/social.ts`: the
payload object built key-by-key over `Object.keys(SOCIAL_ENV_FIELD_API_KEYS)`,
as an association list in insertion order. -/
def toSocialEnvApiPayload (values : SocialEnvValues) :
    List (String × String) :=
  SOCIAL_ENV_FIELD_API_KEYS.foldl
    (fun payload p => payload ++ [(p.2, socialEnvField values p.1)]) []

/-- A parsed `localStorage` object of type `Partial<SocialEnvValues>`:
every field may be absent. -/
structure SocialEnvOverrides where
  twitterApiKey : Option String
  twitterApiSecretKey : Option String
  twitterAccessToken : Option String
  twitterAccessTokenSecret : Option String
  blueskyIdentifier : Option String
  blueskyAppPassword : Option String
  blueskyServiceUrl : Option String
  linkedinClientId : Option String
  linkedinClientSecret : Option String
  linkedinRedirectUri : Option String
deriving DecidableEq, Repr

/-- The object spread `{ ...defaultSocialEnvValues, ...parsed }`: each
present field of `parsed` overrides the base. -/
def spreadSocialEnv (base : SocialEnvValues) (parsed : SocialEnvOverrides) :
    SocialEnvValues :=
  { twitterApiKey := parsed.twitterApiKey.getD base.twitterApiKey
    twitterApiSecretKey := parsed.twitterApiSecretKey.getD base.twitterApiSecretKey
    twitterAccessToken := parsed.twitterAccessToken.getD base.twitterAccessToken
    twitterAccessTokenSecret :=
      parsed.twitterAccessTokenSecret.getD base.twitterAccessTokenSecret
    blueskyIdentifier := parsed.blueskyIdentifier.getD base.blueskyIdentifier
    blueskyAppPassword := parsed.blueskyAppPassword.getD base.blueskyAppPassword
    blueskyServiceUrl := parsed.blueskyServiceUrl.getD base.blueskyServiceUrl
    linkedinClientId := parsed.linkedinClientId.getD base.linkedinClientId
    linkedinClientSecret := parsed.linkedinClientSecret.getD base.linkedinClientSecret
    linkedinRedirectUri := parsed.linkedinRedirectUri.getD base.linkedinRedirectUri }

/-- Translation of `readFromStorage` from `hooks/useSocialEnv.ts`.
`windowAvailable` models `typeof window !== 'undefined'`; `stored` is the
`localStorage` entry: `none` when absent, `some none` when `JSON.parse`
throws, `some (some parsed)` when it parses. -/
def readFromStorage (windowAvailable : Bool)
    (stored : Option (Option SocialEnvOverrides)) : SocialEnvValues :=
  if !windowAvailable then defaultSocialEnvValues
  else
    match stored with
    | none => defaultSocialEnvValues
    | some none => defaultSocialEnvValues
    | some (some parsed) => spreadSocialEnv defaultSocialEnvValues parsed

/-- State of the `useSocialEnv` hook together with the persisted
`localStorage` entry (`showndev-social-env`). -/
structure SocialEnvState where
  values : SocialEnvValues
  storage : Option SocialEnvValues
  status : List (String × Bool)
  isSyncing : Bool
  error : Option String
deriving DecidableEq, Repr

/-- Translation of `clearValues` from `hooks/useSocialEnv.ts`. `result`
is the outcome of the awaited `clearSocialEnvSecrets()` call
(DELETE /social-env); on success it carries the optional `status` map of
the response (`response.status || {}`). -/
def clearValues (st : SocialEnvState)
    (result : Except String (Option (List (String × Bool)))) :
    SocialEnvState :=
  match result with
  | .error _ =>
      { st with
          error := some "Unable to clear social credentials on backend."
          isSyncing := false }
  | .ok responseStatus =>
      { st with
          values := defaultSocialEnvValues
          storage := none
          status := responseStatus.getD []
          error := none
          isSyncing := false }

/-- One push-history entry of the UI (`PushHistory` in `types/shared`):
a group id and its posts. -/
structure PushHistory where
  id : String
  posts : List Post
deriving DecidableEq, Repr

/-- The App component state the claims are about: the currently shown
`posts`, the `postHistory` groups and the selected `currentPushId`. -/
structure AppState where
  posts : List Post
  postHistory : List PushHistory
  currentPushId : Option String
deriving DecidableEq, Repr

/-- The grouping key of `loadContentFromBackend` and
`refreshContentFromBackend`:
`` `${post.repository || 'unknown'}-${post.branch || 'main'}` ``. -/
def groupKey (post : Post) : String :=
  jsOrString post.repository "unknown" ++ "-" ++ jsOrString post.branch "main"

/-- One step of the `reduce` that groups posts: `acc[key].push(post)` on
a JavaScript object, keeping existing keys in place and appending a new
key at the end. -/
def insertGrouped (acc : List (String × List Post)) (key : String)
    (post : Post) : List (String × List Post) :=
  match acc with
  | [] => [(key, [post])]
  | (k, ps) :: rest =>
    if k = key then (k, ps ++ [post]) :: rest
    else (k, ps) :: insertGrouped rest key post

/-- The `reduce` of `loadContentFromBackend` / `refreshContentFromBackend`
grouping posts by `groupKey`, as an association list in object key
order. -/
def groupPosts (posts : List Post) : List (String × List Post) :=
  posts.foldl (fun acc post => insertGrouped acc (groupKey post) post) []

/-- `Object.entries(groupedPosts).map(([key, posts]) => ({id: key, posts}))`. -/
def groupsToPushes (groups : List (String × List Post)) : List PushHistory :=
  groups.map (fun g => { id := g.1, posts := g.2 })

/-- Translation of `refreshContentFromBackend` from `App.tsx`.
`itemsResult` is the outcome of the awaited `getContentItems()` call; the
whole body is wrapped in try/catch, so a failure leaves the state
untouched. -/
def refreshContentFromBackend (st : AppState)
    (itemsResult : Except String (List ContentItem)) : AppState :=
  match itemsResult with
  | .error _ => st
  | .ok contentItems =>
    let backendPosts := contentItems.map convertContentItemToPost
    let newPushes := groupsToPushes (groupPosts backendPosts)
    let st1 := { st with postHistory := newPushes }
    match st.currentPushId with
    | none => st1
    | some cid =>
      match newPushes.find? (fun p => p.id == cid) with
      | some currentPush => { st1 with posts := currentPush.posts }
      | none => st1

/-- Translation of `handleApprove` from `App.tsx`. `approveResult` is the
outcome of the awaited `approveAndPost(postId)` call; the second component
is the notification shown. -/
def handleApprove (st : AppState) (postId : String)
    (approveResult : Except String Unit) : AppState × String :=
  match approveResult with
  | .error _ => (st, "Error approving and posting")
  | .ok _ =>
    ({ st with
        posts := st.posts.map (fun post =>
          if post.id = postId then { post with status := "posted" } else post)
        postHistory := st.postHistory.map (fun ph =>
          { ph with posts := ph.posts.map (fun post =>
              if post.id = postId then { post with status := "posted" }
              else post) }) },
     "Approved & Posted! ✅")

/-- Translation of `rephrasePost` from `App.tsx` (without the transient
`isLoading` flag, which is not part of `posts`/`postHistory`).
`rephraseResult` is the outcome of the awaited
`rephraseContent(postId, normalizedTone)` backend call,
`refreshItemsResult` the outcome of the `getContentItems()` call made by
the subsequent `refreshContentFromBackend()`, and `mcpResult` the outcome
of the `rephraseWithMCP` fallback used when the backend is not
connected. The second component is the notification shown (`""` when
none). -/
def rephrasePost (st : AppState) (postId : String) (backendConnected : Bool)
    (rephraseResult : Except String String)
    (refreshItemsResult : Except String (List ContentItem))
    (mcpResult : Except String String) : AppState × String :=
  if backendConnected then
    match rephraseResult with
    | .error _ => (st, "Error rephrasing post")
    | .ok _ =>
      (refreshContentFromBackend st refreshItemsResult,
       "Post rephrased successfully!")
  else
    match st.posts.find? (fun p => p.id == postId) with
    | none => (st, "")
    | some _ =>
      match mcpResult with
      | .error _ => (st, "Error rephrasing post")
      | .ok newContent =>
        ({ st with
            posts := st.posts.map (fun post =>
              if post.id = postId then { post with content := newContent }
              else post)
            postHistory := st.postHistory.map (fun ph =>
              { ph with posts := ph.posts.map (fun post =>
                  if post.id = postId then { post with content := newContent }
                  else post) }) },
         "Post rephrased successfully (via MCP fallback)")

/-- Sample disapproved post used to instantiate hypotheses. -/
def disapprovedPost : Post :=
  { id := "p1"
    platform := "LinkedIn"
    author := defaultAuthor
    content := "draft text"
    status := "disapproved"
    media := []
    repository := some "repo"
    commit_sha := some "abc1234"
    branch := some "main" }

/-- Sample backend item with status `rephrased`. -/
def rephrasedItem : ContentItem :=
  { mongoId := "c1"
    platform := some "X"
    author := none
    content := some "draft"
    status := "rephrased"
    image_content := none
    video_content := none
    audio_content := none
    media := none
    repository := some "repo"
    commit_sha := some "abc1234"
    branch := some "dev" }

/-- C1: if the awaited backend call of `handleApprove`
(`approveAndPost`) or of `rephrasePost` (`rephraseContent`, with the
backend connected) throws, the resulting App state — posts list and
postHistory — equals the state before the action, and the handler only
surfaces the error notification. -/
theorem failed_backend_call_leaves_state_unchanged (st : AppState)
    (postId errApprove errRephrase : String)
    (refreshItemsResult : Except String (List ContentItem))
    (mcpResult : Except String String) :
    handleApprove st postId (Except.error errApprove) =
      (st, "Error approving and posting") ∧
    rephrasePost st postId true (Except.error errRephrase)
        refreshItemsResult mcpResult =
      (st, "Error rephrasing post") :=
  ⟨rfl, rfl⟩

/-- C2: for every post whose UI status is not `pending`, the PostCard
content textarea and the Approve and Reject buttons are all disabled. -/
theorem postcard_nonpending_controls_disabled (post : Post)
    (h : post.status ≠ "pending") :
    contentTextareaDisabled post = true ∧
    approveButtonDisabled post = true ∧
    rejectButtonDisabled post = true := by
  refine ⟨?_, ?_, ?_⟩ <;>
    simpa [contentTextareaDisabled, approveButtonDisabled,
           rejectButtonDisabled] using h

/-- Witness for C2 at a concrete disapproved post. -/
theorem postcard_nonpending_controls_disabled_witness :
    disapprovedPost.status ≠ "pending" ∧
    (contentTextareaDisabled disapprovedPost = true ∧
     approveButtonDisabled disapprovedPost = true ∧
     rejectButtonDisabled disapprovedPost = true) :=
  ⟨by decide, postcard_nonpending_controls_disabled disapprovedPost (by decide)⟩

/-- C3: for every slider value `t` the tone passed to the rephrase
backend is exactly `t / 100` — with no clamping or other transformation —
so 50 maps to 0.5, 0 to 0 and 100 to 1. -/
theorem tone_mapping_is_exact_division (t : ℚ) :
    normalizedTone t = t / 100 ∧
    normalizedTone 50 = 1/2 ∧
    normalizedTone 0 = 0 ∧
    normalizedTone 100 = 1 := by
  refine ⟨rfl, ?_, ?_, ?_⟩ <;> norm_num [normalizedTone]

/-- C4: the backend-to-UI status conversion maps `rejected` to
`disapproved` and `published` to `posted`, the UI-to-backend mapping of
`updatePostStatus` maps `disapproved` to `rejected` and `posted` to
`published`, and the round trip backend → UI → backend is the identity on
`pending`, `rejected` and `published`. -/
theorem status_vocabulary_roundtrip :
    convertStatusToUI "rejected" = "disapproved" ∧
    convertStatusToUI "published" = "posted" ∧
    uiStatusToBackend "disapproved" = "rejected" ∧
    uiStatusToBackend "posted" = "published" ∧
    uiStatusToBackend (convertStatusToUI "pending") = "pending" ∧
    uiStatusToBackend (convertStatusToUI "rejected") = "rejected" ∧
    uiStatusToBackend (convertStatusToUI "published") = "published" := by
  decide

/-- C5: a backend item with status `rephrased` converts to a UI post with
status `pending`, and its PostCard controls (textarea, Approve, Reject)
are enabled exactly as for a pending item. -/
theorem rephrased_item_renders_as_pending (item : ContentItem)
    (h : item.status = "rephrased") :
    (convertContentItemToPost item).status = "pending" ∧
    contentTextareaDisabled (convertContentItemToPost item) = false ∧
    approveButtonDisabled (convertContentItemToPost item) = false ∧
    rejectButtonDisabled (convertContentItemToPost item) = false := by
  have hs : (convertContentItemToPost item).status = "pending" := by
    have hx : (convertContentItemToPost item).status =
        convertStatusToUI item.status := rfl
    rw [hx, h]
    decide
  refine ⟨hs, ?_, ?_, ?_⟩ <;>
    simp [contentTextareaDisabled, approveButtonDisabled,
          rejectButtonDisabled, hs]

/-- Witness for C5 at a concrete rephrased item. -/
theorem rephrased_item_renders_as_pending_witness :
    rephrasedItem.status = "rephrased" ∧
    ((convertContentItemToPost rephrasedItem).status = "pending" ∧
     contentTextareaDisabled (convertContentItemToPost rephrasedItem) = false ∧
     approveButtonDisabled (convertContentItemToPost rephrasedItem) = false ∧
     rejectButtonDisabled (convertContentItemToPost rephrasedItem) = false) :=
  ⟨rfl, rephrased_item_renders_as_pending rephrasedItem rfl⟩

/-- C7: after a successful `clearValues` call the persisted storage entry
is removed, the in-memory values are reset to the defaults, and every
credential field is the empty string (the two non-credential fields are
their public default URLs). -/
theorem clear_values_clears_all_credentials (st : SocialEnvState)
    (responseStatus : Option (List (String × Bool))) :
    (clearValues st (Except.ok responseStatus)).storage = none ∧
    (clearValues st (Except.ok responseStatus)).values =
      defaultSocialEnvValues ∧
    (clearValues st (Except.ok responseStatus)).values.twitterApiKey = "" ∧
    (clearValues st (Except.ok responseStatus)).values.twitterApiSecretKey = "" ∧
    (clearValues st (Except.ok responseStatus)).values.twitterAccessToken = "" ∧
    (clearValues st (Except.ok responseStatus)).values.twitterAccessTokenSecret = "" ∧
    (clearValues st (Except.ok responseStatus)).values.blueskyIdentifier = "" ∧
    (clearValues st (Except.ok responseStatus)).values.blueskyAppPassword = "" ∧
    (clearValues st (Except.ok responseStatus)).values.linkedinClientId = "" ∧
    (clearValues st (Except.ok responseStatus)).values.linkedinClientSecret = "" :=
  ⟨rfl, rfl, rfl, rfl, rfl, rfl, rfl, rfl, rfl, rfl⟩

/-- C8: `toSocialEnvApiPayload` produces exactly the ten
platform-prefixed snake_case keys, in order, each mapped to the
corresponding field of the input unchanged. -/
theorem social_env_payload_exact_fields (values : SocialEnvValues) :
    toSocialEnvApiPayload values =
      [ ("twitter_api_key", values.twitterApiKey)
      , ("twitter_api_secret_key", values.twitterApiSecretKey)
      , ("twitter_access_token", values.twitterAccessToken)
      , ("twitter_access_token_secret", values.twitterAccessTokenSecret)
      , ("bluesky_identifier", values.blueskyIdentifier)
      , ("bluesky_app_password", values.blueskyAppPassword)
      , ("bluesky_service_url", values.blueskyServiceUrl)
      , ("linkedin_client_id", values.linkedinClientId)
      , ("linkedin_client_secret", values.linkedinClientSecret)
      , ("linkedin_redirect_uri", values.linkedinRedirectUri) ] ∧
    (toSocialEnvApiPayload values).map Prod.fst =
      [ "twitter_api_key", "twitter_api_secret_key", "twitter_access_token"
      , "twitter_access_token_secret", "bluesky_identifier"
      , "bluesky_app_password", "bluesky_service_url", "linkedin_client_id"
      , "linkedin_client_secret", "linkedin_redirect_uri" ] :=
  ⟨rfl, rfl⟩

/-- C10: `readFromStorage` is total: an absent entry or unparsable JSON
yields the defaults, and a parsed partial object yields the defaults
overridden field-by-field by the stored values, so every field is
defined. -/
theorem read_from_storage_total (w : Bool) (parsed : SocialEnvOverrides) :
    readFromStorage w none = defaultSocialEnvValues ∧
    readFromStorage w (some none) = defaultSocialEnvValues ∧
    readFromStorage true (some (some parsed)) =
      { twitterApiKey := parsed.twitterApiKey.getD ""
        twitterApiSecretKey := parsed.twitterApiSecretKey.getD ""
        twitterAccessToken := parsed.twitterAccessToken.getD ""
        twitterAccessTokenSecret := parsed.twitterAccessTokenSecret.getD ""
        blueskyIdentifier := parsed.blueskyIdentifier.getD ""
        blueskyAppPassword := parsed.blueskyAppPassword.getD ""
        blueskyServiceUrl := parsed.blueskyServiceUrl.getD "https://bsky.social"
        linkedinClientId := parsed.linkedinClientId.getD ""
        linkedinClientSecret := parsed.linkedinClientSecret.getD ""
        linkedinRedirectUri :=
          parsed.linkedinRedirectUri.getD "http://localhost:3000/callback" } := by
  refine ⟨?_, ?_, rfl⟩ <;> cases w <;> rfl

/-- Media list as described by claim C9, stated from the claim's wording
for comparison with `buildMedia`: all non-empty images, then all
non-empty videos, then all non-empty audios with the
`data:audio/mpeg;base64,` prefix and positional `Audio n` captions; the
legacy `media` field is used only when this constructed list is empty. -/
def mediaListDescribed (item : ContentItem) : List MediaItem :=
  let constructed :=
    (item.image_content.getD []).filterMap
      (fun url => if url ≠ "" then some ⟨url, MediaType.image, none⟩ else none)
    ++ (item.video_content.getD []).filterMap
      (fun url => if url ≠ "" then some ⟨url, MediaType.video, none⟩ else none)
    ++ ((item.audio_content.getD []).enum).filterMap
      (fun p => if p.2 ≠ "" then
          some ⟨"data:audio/mpeg;base64," ++ p.2, MediaType.audio,
                some ("Audio " ++ toString (p.1 + 1))⟩
        else none)
  if constructed.isEmpty then item.media.getD [] else constructed

/-- The push loop over urls appends exactly the non-empty entries. -/
theorem pushUrls_eq (urls : List String) (init : List MediaItem)
    (ty : MediaType) :
    pushUrls init urls ty =
      init ++ urls.filterMap
        (fun url => if url ≠ "" then some ⟨url, ty, none⟩ else none) := by
  induction urls generalizing init with
  | nil => simp [pushUrls]
  | cons u us ih =>
    by_cases h : u = ""
    · have hus := ih init
      simp only [pushUrls, List.foldl_cons] at hus ⊢
      simpa [h, List.filterMap_cons] using hus
    · have hus := ih (init ++ [⟨u, ty, none⟩])
      simp only [pushUrls, List.foldl_cons] at hus ⊢
      simp [h, List.filterMap_cons, List.append_assoc] at hus ⊢
      exact hus

/-- The audio push loop over an enumerated list appends exactly the
entries with a non-empty payload. -/
theorem pushAudios_foldl_eq (l : List (Nat × String))
    (init : List MediaItem) :
    l.foldl
      (fun acc p =>
        if p.2 ≠ "" then
          acc ++ [⟨"data:audio/mpeg;base64," ++ p.2, MediaType.audio,
                   some ("Audio " ++ toString (p.1 + 1))⟩]
        else acc) init =
      init ++ l.filterMap
        (fun p => if p.2 ≠ "" then
            some ⟨"data:audio/mpeg;base64," ++ p.2, MediaType.audio,
                  some ("Audio " ++ toString (p.1 + 1))⟩
          else none) := by
  induction l generalizing init with
  | nil => simp
  | cons a l ih =>
    by_cases h : a.2 = ""
    · have hl := ih init
      simpa [h, List.filterMap_cons] using hl
    · have hl := ih (init ++
        [⟨"data:audio/mpeg;base64," ++ a.2, MediaType.audio,
          some ("Audio " ++ toString (a.1 + 1))⟩])
      simp [h, List.filterMap_cons, List.append_assoc] at hl ⊢
      exact hl

/-- Specialisation of `pushAudios_foldl_eq` to `pushAudios`. -/
theorem pushAudios_eq (audios : List String) (init : List MediaItem) :
    pushAudios init audios =
      init ++ (audios.enum).filterMap
        (fun p => if p.2 ≠ "" then
            some ⟨"data:audio/mpeg;base64," ++ p.2, MediaType.audio,
                  some ("Audio " ++ toString (p.1 + 1))⟩
          else none) :=
  pushAudios_foldl_eq audios.enum init

/-- C9: the media list built by `convertContentItemToPost` is exactly the
ordered concatenation of non-empty images, videos and prefixed,
positionally captioned audios, with the legacy `media` field used only
when that list is empty. -/
theorem convert_media_construction (item : ContentItem) :
    (convertContentItemToPost item).media = mediaListDescribed item := by
  show buildMedia item = mediaListDescribed item
  simp only [buildMedia, mediaListDescribed]
  rw [pushUrls_eq, pushUrls_eq, pushAudios_eq]
  simp only [List.nil_append, List.append_assoc]
  split_ifs with hA
  · have hnil := List.isEmpty_iff.mp hA
    rcases List.append_eq_nil.mp hnil with ⟨h1, h23⟩
    rcases List.append_eq_nil.mp h23 with ⟨h2, h3⟩
    cases hm : item.media with
    | none =>
      simp only [hm, h1, h2, h3, Option.getD_none, List.append_nil,
                 List.nil_append]
    | some legacy =>
      simp only [hm, h1, h2, h3, Option.getD_some, List.append_nil,
                 List.nil_append]
  · rfl

/-- Insertion invariant: one grouping step keeps every member of every
group keyed by its own `groupKey`. -/
theorem insertGrouped_mem_key (post : Post) :
    ∀ acc : List (String × List Post),
    (∀ g ∈ acc, ∀ r ∈ g.2, groupKey r = g.1) →
    ∀ g ∈ insertGrouped acc (groupKey post) post, ∀ r ∈ g.2,
      groupKey r = g.1 := by
  intro acc
  induction acc with
  | nil =>
    intro _ g hg r hr
    simp only [insertGrouped, List.mem_singleton] at hg
    subst hg
    simp only [List.mem_singleton] at hr
    subst hr
    rfl
  | cons a rest ih =>
    obtain ⟨k, ps⟩ := a
    intro hinv g hg r hr
    by_cases h : k = groupKey post
    · simp only [insertGrouped, if_pos h] at hg
      rcases List.mem_cons.mp hg with heq | hmem
      · subst heq
        rcases List.mem_append.mp hr with hr1 | hr2
        · exact hinv (k, ps) (List.mem_cons_self _ _) r hr1
        · simp only [List.mem_singleton] at hr2
          subst hr2
          exact h.symm
      · exact hinv g (List.mem_cons_of_mem _ hmem) r hr
    · simp only [insertGrouped, if_neg h] at hg
      rcases List.mem_cons.mp hg with heq | hmem
      · subst heq
        exact hinv (k, ps) (List.mem_cons_self _ _) r hr
      · exact ih (fun g hg => hinv g (List.mem_cons_of_mem _ hg)) g hmem r hr

/-- Keys after one grouping step: unchanged when the key already exists,
appended at the end otherwise. -/
theorem insertGrouped_keys (key : String) (post : Post) :
    ∀ acc : List (String × List Post),
    (insertGrouped acc key post).map Prod.fst =
      if key ∈ acc.map Prod.fst then acc.map Prod.fst
      else acc.map Prod.fst ++ [key] := by
  intro acc
  induction acc with
  | nil => simp [insertGrouped]
  | cons a rest ih =>
    obtain ⟨k, ps⟩ := a
    by_cases h : k = key
    · subst h
      simp [insertGrouped]
    · simp only [insertGrouped, if_neg h, List.map_cons, ih]
      by_cases h2 : key ∈ rest.map Prod.fst
      · simp [h2, Ne.symm h]
      · simp [h2, Ne.symm h]

/-- Grouping steps preserve distinctness of the group keys. -/
theorem insertGrouped_keys_nodup (key : String) (post : Post)
    (acc : List (String × List Post)) (h : (acc.map Prod.fst).Nodup) :
    ((insertGrouped acc key post).map Prod.fst).Nodup := by
  rw [insertGrouped_keys]
  by_cases hk : key ∈ acc.map Prod.fst
  · simpa [hk] using h
  · simp [hk, List.nodup_append, h]

/-- Membership in groups after one grouping step. -/
theorem insertGrouped_mem_iff (key : String) (post q : Post) (k : String) :
    ∀ acc : List (String × List Post),
    (∃ ps, (k, ps) ∈ insertGrouped acc key post ∧ q ∈ ps) ↔
      (∃ ps, (k, ps) ∈ acc ∧ q ∈ ps) ∨ (q = post ∧ k = key) := by
  intro acc
  induction acc with
  | nil =>
    constructor
    · rintro ⟨ps, hmem, hq⟩
      simp only [insertGrouped, List.mem_singleton, Prod.mk.injEq] at hmem
      obtain ⟨hk, hps⟩ := hmem
      subst hps
      simp only [List.mem_singleton] at hq
      exact Or.inr ⟨hq, hk⟩
    · rintro (⟨ps, hmem, _⟩ | ⟨hq, hk⟩)
      · simp at hmem
      · subst hq; subst hk
        exact ⟨[q], by simp [insertGrouped], by simp⟩
  | cons a rest ih =>
    obtain ⟨k0, ps0⟩ := a
    by_cases h : k0 = key
    · subst h
      simp only [insertGrouped, if_pos rfl]
      constructor
      · rintro ⟨ps, hmem, hq⟩
        rcases List.mem_cons.mp hmem with heq | hmem2
        · obtain ⟨hk, hps⟩ := Prod.mk.injEq .. ▸ heq
          rcases List.mem_append.mp (hps ▸ hq) with hq1 | hq2
          · exact Or.inl ⟨ps0, by rw [hk]; exact List.mem_cons_self _ _, hq1⟩
          · simp only [List.mem_singleton] at hq2
            exact Or.inr ⟨hq2, hk⟩
        · exact Or.inl ⟨ps, List.mem_cons_of_mem _ hmem2, hq⟩
      · rintro (⟨ps, hmem, hq⟩ | ⟨hq, hk⟩)
        · rcases List.mem_cons.mp hmem with heq | hmem2
          · obtain ⟨hk, hps⟩ := Prod.mk.injEq .. ▸ heq
            exact ⟨ps0 ++ [post], by rw [hk]; exact List.mem_cons_self _ _,
                   List.mem_append.mpr (Or.inl (hps ▸ hq))⟩
          · exact ⟨ps, List.mem_cons_of_mem _ hmem2, hq⟩
        · subst hq; subst hk
          exact ⟨ps0 ++ [q], List.mem_cons_self _ _, by simp⟩
    · simp only [insertGrouped, if_neg h]
      constructor
      · rintro ⟨ps, hmem, hq⟩
        rcases List.mem_cons.mp hmem with heq | hmem2
        · obtain ⟨hk, hps⟩ := Prod.mk.injEq .. ▸ heq
          subst hps
          exact Or.inl ⟨ps, by rw [hk]; exact List.mem_cons_self _ _, hq⟩
        · rcases ih.mp ⟨ps, hmem2, hq⟩ with ⟨ps2, hm2, hq2⟩ | hr
          · exact Or.inl ⟨ps2, List.mem_cons_of_mem _ hm2, hq2⟩
          · exact Or.inr hr
      · rintro (⟨ps, hmem, hq⟩ | hr)
        · rcases List.mem_cons.mp hmem with heq | hmem2
          · obtain ⟨hk, hps⟩ := Prod.mk.injEq .. ▸ heq
            subst hps
            exact ⟨ps, by rw [hk]; exact List.mem_cons_self _ _, hq⟩
          · rcases ih.mpr (Or.inl ⟨ps, hmem2, hq⟩) with ⟨ps2, hm2, hq2⟩
            exact ⟨ps2, List.mem_cons_of_mem _ hm2, hq2⟩
        · rcases ih.mpr (Or.inr hr) with ⟨ps2, hm2, hq2⟩
          exact ⟨ps2, List.mem_cons_of_mem _ hm2, hq2⟩

/-- Membership in the groups built by the grouping `reduce`. -/
theorem groupPosts_foldl_mem (k : String) (q : Post) :
    ∀ (posts : List Post) (acc : List (String × List Post)),
    (∃ ps,
        (k, ps) ∈ posts.foldl (fun a p => insertGrouped a (groupKey p) p) acc
        ∧ q ∈ ps) ↔
      (∃ ps, (k, ps) ∈ acc ∧ q ∈ ps) ∨ (q ∈ posts ∧ groupKey q = k) := by
  intro posts
  induction posts with
  | nil => intro acc; simp
  | cons p rest ih =>
    intro acc
    rw [List.foldl_cons, ih, insertGrouped_mem_iff]
    constructor
    · rintro ((h | ⟨hq, hk⟩) | h2)
      · exact Or.inl h
      · subst hq
        exact Or.inr ⟨List.mem_cons_self _ _, hk.symm⟩
      · exact Or.inr ⟨List.mem_cons_of_mem _ h2.1, h2.2⟩
    · rintro (h | ⟨hmem, hkey⟩)
      · exact Or.inl (Or.inl h)
      · rcases List.mem_cons.mp hmem with heq | hmem2
        · subst heq
          exact Or.inl (Or.inr ⟨rfl, hkey.symm⟩)
        · exact Or.inr ⟨hmem2, hkey⟩

/-- Every member of every group of `groupPosts` has the group's key. -/
theorem groupPosts_mem_key (posts : List Post) :
    ∀ g ∈ groupPosts posts, ∀ r ∈ g.2, groupKey r = g.1 := by
  have general : ∀ (l : List Post) (acc : List (String × List Post)),
      (∀ g ∈ acc, ∀ r ∈ g.2, groupKey r = g.1) →
      ∀ g ∈ l.foldl (fun a p => insertGrouped a (groupKey p) p) acc,
        ∀ r ∈ g.2, groupKey r = g.1 := by
    intro l
    induction l with
    | nil => intro acc h; simpa using h
    | cons p rest ih =>
      intro acc h
      rw [List.foldl_cons]
      exact ih _ (insertGrouped_mem_key p acc h)
  exact general posts [] (by simp)

/-- The group keys of `groupPosts` are pairwise distinct. -/
theorem groupPosts_keys_nodup (posts : List Post) :
    ((groupPosts posts).map Prod.fst).Nodup := by
  have general : ∀ (l : List Post) (acc : List (String × List Post)),
      (acc.map Prod.fst).Nodup →
      ((l.foldl (fun a p => insertGrouped a (groupKey p) p) acc).map
        Prod.fst).Nodup := by
    intro l
    induction l with
    | nil => intro acc h; simpa using h
    | cons p rest ih =>
      intro acc h
      rw [List.foldl_cons]
      exact ih _ (insertGrouped_keys_nodup _ _ _ h)
  exact general posts [] (by simp)

/-- In a list of groups with distinct keys, a key determines its group. -/
theorem keys_nodup_mem_unique :
    ∀ groups : List (String × List Post), (groups.map Prod.fst).Nodup →
    ∀ {k : String} {ps1 ps2 : List Post},
      (k, ps1) ∈ groups → (k, ps2) ∈ groups → ps1 = ps2 := by
  intro groups
  induction groups with
  | nil => intro _ k ps1 ps2 h1; cases h1
  | cons g rest ih =>
    intro hnodup k ps1 ps2 h1 h2
    obtain ⟨k0, ps0⟩ := g
    simp only [List.map_cons, List.nodup_cons] at hnodup
    rcases List.mem_cons.mp h1 with e1 | m1 <;>
      rcases List.mem_cons.mp h2 with e2 | m2
    · obtain ⟨hk1, hps1⟩ := Prod.mk.injEq .. ▸ e1
      obtain ⟨hk2, hps2⟩ := Prod.mk.injEq .. ▸ e2
      rw [hps1, hps2]
    · obtain ⟨hk1, hps1⟩ := Prod.mk.injEq .. ▸ e1
      exact absurd (List.mem_map.mpr ⟨(k, ps2), m2, by simp [hk1]⟩) hnodup.1
    · obtain ⟨hk2, hps2⟩ := Prod.mk.injEq .. ▸ e2
      exact absurd (List.mem_map.mpr ⟨(k, ps1), m1, by simp [hk2]⟩) hnodup.1
    · exact ih hnodup.2 m1 m2

/-- C6 (amended): two posts of the list are placed in the same push group
exactly when their group-key strings
`` `${repository || 'unknown'}-${branch || 'main'}` `` coincide; equal
defaulted repository and branch still imply the same group, but the
converse can fail because the hyphen-joined key is not injective. -/
theorem push_groups_characterised (posts : List Post) (p q : Post)
    (hp : p ∈ posts) (hq : q ∈ posts) :
    ((∃ g ∈ groupPosts posts, p ∈ g.2 ∧ q ∈ g.2) ↔
      groupKey p = groupKey q) ∧
    ((jsOrString p.repository "unknown" = jsOrString q.repository "unknown" ∧
      jsOrString p.branch "main" = jsOrString q.branch "main") →
      ∃ g ∈ groupPosts posts, p ∈ g.2 ∧ q ∈ g.2) := by
  have hmem : ∀ (r : Post) (k : String),
      (∃ ps, (k, ps) ∈ groupPosts posts ∧ r ∈ ps) ↔
        (r ∈ posts ∧ groupKey r = k) := by
    intro r k
    have h := groupPosts_foldl_mem k r posts []
    simpa [groupPosts] using h
  have main : (∃ g ∈ groupPosts posts, p ∈ g.2 ∧ q ∈ g.2) ↔
      groupKey p = groupKey q := by
    constructor
    · rintro ⟨g, hg, hpg, hqg⟩
      have h1 := groupPosts_mem_key posts g hg p hpg
      have h2 := groupPosts_mem_key posts g hg q hqg
      rw [h1, h2]
    · intro hk
      obtain ⟨ps1, hps1, hp1⟩ := (hmem p (groupKey p)).mpr ⟨hp, rfl⟩
      obtain ⟨ps2, hps2, hq2⟩ := (hmem q (groupKey p)).mpr ⟨hq, hk.symm⟩
      have hps : ps1 = ps2 :=
        keys_nodup_mem_unique _ (groupPosts_keys_nodup posts) hps1 hps2
      subst hps
      exact ⟨(groupKey p, ps1), hps1, hp1, hq2⟩
  refine ⟨main, fun hrb => main.mpr ?_⟩
  simp [groupKey, hrb.1, hrb.2]

/-- Post with repository `repo-x` and branch `y`. -/
def collidingPostA : Post :=
  { id := "a"
    platform := "X"
    author := defaultAuthor
    content := "one"
    status := "pending"
    media := []
    repository := some "repo-x"
    commit_sha := none
    branch := some "y" }

/-- Post with repository `repo` and branch `x-y`. -/
def collidingPostB : Post :=
  { id := "b"
    platform := "X"
    author := defaultAuthor
    content := "two"
    status := "pending"
    media := []
    repository := some "repo"
    commit_sha := none
    branch := some "x-y" }

/-- C6 counterexample: two posts with different repositories and
different branches are still placed in the same push group, because the
hyphen-joined key collides (`repo-x` / `y` versus `repo` / `x-y`, both
giving the key `repo-x-y`). -/
theorem push_grouping_iff_counterexample :
    (∃ g ∈ groupPosts [collidingPostA, collidingPostB],
        collidingPostA ∈ g.2 ∧ collidingPostB ∈ g.2) ∧
    collidingPostA.repository ≠ collidingPostB.repository ∧
    collidingPostA.branch ≠ collidingPostB.branch := by
  refine ⟨⟨("repo-x-y", [collidingPostA, collidingPostB]), ?_, ?_, ?_⟩,
          ?_, ?_⟩ <;> decide

/-- Two posts sharing repository and branch, for the witness below. -/
def sameGroupPostA : Post :=
  { id := "w1"
    platform := "X"
    author := defaultAuthor
    content := "one"
    status := "pending"
    media := []
    repository := some "acme"
    commit_sha := none
    branch := some "dev" }

/-- Second post sharing repository and branch with `sameGroupPostA`. -/
def sameGroupPostB : Post :=
  { id := "w2"
    platform := "X"
    author := defaultAuthor
    content := "two"
    status := "pending"
    media := []
    repository := some "acme"
    commit_sha := none
    branch := some "dev" }

/-- Witness for the amended C6 grouping characterisation at a concrete
two-post list. -/
theorem push_groups_characterised_witness :
    sameGroupPostA ∈ [sameGroupPostA, sameGroupPostB] ∧
    sameGroupPostB ∈ [sameGroupPostA, sameGroupPostB] ∧
    (((∃ g ∈ groupPosts [sameGroupPostA, sameGroupPostB],
          sameGroupPostA ∈ g.2 ∧ sameGroupPostB ∈ g.2) ↔
        groupKey sameGroupPostA = groupKey sameGroupPostB) ∧
     ((jsOrString sameGroupPostA.repository "unknown" =
         jsOrString sameGroupPostB.repository "unknown" ∧
       jsOrString sameGroupPostA.branch "main" =
         jsOrString sameGroupPostB.branch "main") →
       ∃ g ∈ groupPosts [sameGroupPostA, sameGroupPostB],
         sameGroupPostA ∈ g.2 ∧ sameGroupPostB ∈ g.2)) :=
  ⟨by decide, by decide,
   push_groups_characterised [sameGroupPostA, sameGroupPostB]
     sameGroupPostA sameGroupPostB (by decide) (by decide)⟩
